import Mathlib

set_option linter.unusedVariables false

/-! Shallow embedding of raff/multipartstreamer (streamer.go) together with the
parts of the Go standard library the package calls into: mime/multipart.Writer,
io.MultiReader, ioutil.NopCloser and strings.Replacer. Byte sequences are
modelled as lists of characters (all data handled here is ASCII), Go int64 as
Int, and a Go io.Reader either as the finite list of bytes it yields before EOF
or, for the zero value of the reader field, as the nil reader whose Read call
panics. Header keys are taken as already canonical, which holds for every
header the package constructs. -/

/-- Byte sequences are lists of characters. -/
abbrev Bytes := List Char

/-- The double-quote character. -/
def dquote : Char := Char.ofNat 34

/-- The backslash character. -/
def bslash : Char := Char.ofNat 92

/-- Carriage return followed by line feed. -/
def crlf : Bytes := "\r\n".data

/-- Model of the strings.Replacer built in streamer.go (quoteEscaper), restricted
to its two single-character patterns: scan left to right, replacing every
occurrence of either pattern. -/
def replacerRun (p1 : Char) (r1 : Bytes) (p2 : Char) (r2 : Bytes) : Bytes → Bytes
  | [] => []
  | c :: cs =>
    if c = p1 then r1 ++ replacerRun p1 r1 p2 r2 cs
    else if c = p2 then r2 ++ replacerRun p1 r1 p2 r2 cs
    else c :: replacerRun p1 r1 p2 r2 cs

/-- escapeQuotes (streamer.go): quoteEscaper.Replace, escaping backslash and
double quote with a backslash. -/
def escapeQuotes (s : Bytes) : Bytes :=
  replacerRun bslash [bslash, bslash] dquote [bslash, dquote] s

/-- State of the mime/multipart.Writer: its boundary token and whether a part
has already been created (lastpart non-nil in Go). The output buffer the writer
writes through lives in the MultipartStreamer as bodyBuffer. -/
structure Multipart.Writer where
  boundary : String
  lastpart : Bool
deriving DecidableEq

/-- The MultipartStreamer struct (streamer.go). The reader field is the deferred
payload source: none is the nil io.Reader of a streamer on which no deferred
payload was ever registered. -/
structure MultipartStreamer where
  ContentType : String
  bodyBuffer : Bytes
  bodyWriter : Multipart.Writer
  closeBuffer : Bytes
  reader : Option Bytes
  contentLength : Int
deriving DecidableEq

/-- Lexicographic order test on character lists, mirroring Go string comparison
on ASCII data. -/
def charsLt : List Char → List Char → Bool
  | [], [] => false
  | [], _ :: _ => true
  | _ :: _, [] => false
  | a :: a1, b :: b1 => if a < b then true else if b < a then false else charsLt a1 b1

/-- A textproto.MIMEHeader with single-valued keys, as the package always
builds it. -/
abbrev MIMEHeader := List (String × Bytes)

/-- MIMEHeader.Set: replaces any previous value bound to the key. -/
def hSet (h : MIMEHeader) (k : String) (v : Bytes) : MIMEHeader :=
  (k, v) :: h.filter (fun p => p.1 != k)

/-- Insertion step of the key sort CreatePart performs on header keys. -/
def insertHdr (kv : String × Bytes) : MIMEHeader → MIMEHeader
  | [] => [kv]
  | h :: t => if charsLt kv.1.data h.1.data || kv.1 == h.1 then kv :: h :: t else h :: insertHdr kv t

/-- mime/multipart CreatePart writes the header keys in sorted order. -/
def sortHdrs : MIMEHeader → MIMEHeader
  | [] => []
  | h :: t => insertHdr h (sortHdrs t)

/-- The header block of a part: one "key: value" line per header. -/
def headerLines : MIMEHeader → Bytes
  | [] => []
  | (k, v) :: t => k.data ++ ": ".data ++ v ++ crlf ++ headerLines t

/-- mime/multipart Writer.CreatePart as driven by the streamer: appends the
boundary line (preceded by CRLF when a part is already open), the sorted header
lines and a blank line to bodyBuffer, and records that a part is now open. -/
def MultipartStreamer.createPart (m : MultipartStreamer) (h : MIMEHeader) : MultipartStreamer :=
  { m with
    bodyBuffer := m.bodyBuffer ++
      (if m.bodyWriter.lastpart then crlf else []) ++
      "--".data ++ m.bodyWriter.boundary.data ++ crlf ++
      headerLines (sortHdrs h) ++ crlf,
    bodyWriter := { m.bodyWriter with lastpart := true } }

/-- The Content-Disposition value built for a form field,
form-data; name="escaped-name" (multipart CreateFormField and WritePart). -/
def formDataName (key : Bytes) : Bytes :=
  "form-data; name=".data ++ dquote :: (escapeQuotes key ++ [dquote])

/-- The Content-Disposition value built for a file part, adding
; filename="escaped-filename" (multipart CreateFormFile and
WriteReaderWithHeaders). -/
def formDataNameFile (key filename : Bytes) : Bytes :=
  formDataName key ++ "; filename=".data ++ dquote :: (escapeQuotes filename ++ [dquote])

/-- multipart Writer.WriteField via CreateFormField: frames a field part and
writes the value into it. Writes to the in-memory buffer cannot fail, so the
always-nil error is not modelled. -/
def MultipartStreamer.writeField (m : MultipartStreamer) (key value : String) : MultipartStreamer :=
  let m1 := m.createPart (hSet [] "Content-Disposition" (formDataName key.data))
  { m1 with bodyBuffer := m1.bodyBuffer ++ value.data }

/-- WriteFields (streamer.go): WriteField for each entry. The unspecified Go map
iteration order is captured by quantifying over the entry list. -/
def MultipartStreamer.writeFields (m : MultipartStreamer) (fields : List (String × String)) : MultipartStreamer :=
  fields.foldl (fun acc kv => acc.writeField kv.1 kv.2) m

/-- multipart Writer.CreateFormFile: a part whose headers are the file
Content-Disposition and Content-Type: application/octet-stream. -/
def MultipartStreamer.createFormFile (m : MultipartStreamer) (key filename : String) : MultipartStreamer :=
  m.createPart (hSet (hSet [] "Content-Disposition" (formDataNameFile key.data filename.data))
    "Content-Type" "application/octet-stream".data)

/-- WriteReader (streamer.go): stores the deferred reader and its declared size
on the streamer, then writes only the part framing via CreateFormFile; the
reader itself is not touched. -/
def MultipartStreamer.writeReader (m : MultipartStreamer) (key filename : String) (size : Int) (r : Bytes) : MultipartStreamer :=
  ({ m with reader := some r, contentLength := size }).createFormFile key filename

/-- WritePart (streamer.go): frames a part with Content-Disposition plus the
caller's headers and eagerly copies the data into the buffer. -/
def MultipartStreamer.writePart (m : MultipartStreamer) (fieldname : String) (data : Bytes) (headers : List (String × Bytes)) : MultipartStreamer :=
  let h := headers.foldl (fun acc kv => hSet acc kv.1 kv.2)
    (hSet [] "Content-Disposition" (formDataName fieldname.data))
  let m1 := m.createPart h
  { m1 with bodyBuffer := m1.bodyBuffer ++ data }

/-- A Go interface value as stored in the map[string]any passed to
WriteReaderWithHeaders: the dynamic types exercised by the package. -/
inductive GoVal
  | vInt64 (i : Int)
  | vInt (i : Int)
  | vStr (s : String)
deriving DecidableEq

/-- fmt.Sprintf with the %v verb applied to one interface value. -/
def govFormat : GoVal → Bytes
  | GoVal.vInt64 i => (toString i).data
  | GoVal.vInt i => (toString i).data
  | GoVal.vStr s => s.data

/-- Indexing a Go map, the nil interface value (none) when the key is absent. -/
def mapIndex (hs : List (String × GoVal)) (k : String) : Option GoVal :=
  (hs.find? (fun p => p.1 == k)).map Prod.snd

/-- WriteReaderWithHeaders (streamer.go). The assignments run in source order:
the reader is stored first, then the type assertion on
headers["Content-Length"].(int64) either yields the content length or panics,
modelled as Except.error carrying the streamer state at the panic; only on
success is the part framing written. -/
def MultipartStreamer.writeReaderWithHeaders (m : MultipartStreamer) (key filename : String) (r : Bytes)
    (headers : List (String × GoVal)) : Except MultipartStreamer MultipartStreamer :=
  let m1 := { m with reader := some r }
  match mapIndex headers "Content-Length" with
  | some (GoVal.vInt64 i) =>
    let m2 := { m1 with contentLength := i }
    let h := headers.foldl (fun acc kv => hSet acc kv.1 (govFormat kv.2))
      (hSet [] "Content-Disposition" (formDataNameFile key.data filename.data))
    Except.ok (m2.createPart h)
  | _ => Except.error m1

/-- WriteReaderWithSize (streamer.go): WriteReaderWithHeaders with the default
octet-stream content type and the size stored as an int64. -/
def MultipartStreamer.writeReaderWithSize (m : MultipartStreamer) (key filename : String) (size : Int) (r : Bytes) :
    Except MultipartStreamer MultipartStreamer :=
  m.writeReaderWithHeaders key filename r
    [("Content-Type", GoVal.vStr "application/octet-stream"), ("Content-Length", GoVal.vInt64 size)]

/-- WriteFile (streamer.go): opens the file, stats it and registers the open
handle through WriteReader. The filesystem is abstracted: the open handle is
represented by the bytes it will yield, its stat size is their count, and the
result of filepath.Base is passed as the base argument. -/
def MultipartStreamer.writeFile (m : MultipartStreamer) (key base : String) (contents : Bytes) : MultipartStreamer :=
  m.writeReader key base (Int.ofNat contents.length) contents

/-- One character of the mime/multipart SetBoundary validation (RFC 2046
boundary characters; a space may not be the last character). -/
def boundaryCharOk (c : Char) (isLast : Bool) : Bool :=
  decide ((65 ≤ c.toNat ∧ c.toNat ≤ 90) ∨ (97 ≤ c.toNat ∧ c.toNat ≤ 122) ∨
    (48 ≤ c.toNat ∧ c.toNat ≤ 57) ∨
    c.toNat ∈ [39, 40, 41, 43, 95, 44, 45, 46, 47, 58, 61, 63] ∨
    (c.toNat = 32 ∧ isLast = false))

/-- All characters of a boundary are acceptable, the last position knowing it is
last. -/
def boundaryCharsOk : List Char → Bool
  | [] => true
  | [c] => boundaryCharOk c true
  | c :: c2 :: rest => boundaryCharOk c false && boundaryCharsOk (c2 :: rest)

/-- mime/multipart Writer.SetBoundary validation: length between 1 and 70 and
only acceptable characters. -/
def validBoundary (b : String) : Bool :=
  decide (1 ≤ b.length) && decide (b.length ≤ 70) && boundaryCharsOk b.data

/-- SetBoundary: rejected, leaving the writer unchanged, after a part was
created or when the boundary is invalid; the Bool is the success flag standing
for the Go error result. -/
def Multipart.Writer.setBoundary (w : Multipart.Writer) (b : String) : Multipart.Writer × Bool :=
  if w.lastpart then (w, false)
  else if validBoundary b then ({ w with boundary := b }, true)
  else (w, false)

/-- WithBoundary (streamer.go): applies SetBoundary and discards its error. -/
def withBoundary (b : String) : MultipartStreamer → MultipartStreamer :=
  fun m => { m with bodyWriter := (m.bodyWriter.setBoundary b).1 }

/-- New (streamer.go). The process-wide random default boundary is passed in as
defaultBoundary (Go randomBoundary always yields 60 hexadecimal characters, a
valid boundary). ContentType and the closing-boundary buffer are computed from
the boundary in effect after the options ran. -/
def new (defaultBoundary : String) (opts : List (MultipartStreamer → MultipartStreamer)) : MultipartStreamer :=
  let m0 : MultipartStreamer :=
    { ContentType := "", bodyBuffer := [],
      bodyWriter := { boundary := defaultBoundary, lastpart := false },
      closeBuffer := [], reader := none, contentLength := 0 }
  let m1 := opts.foldl (fun m f => f m) m0
  { m1 with
    ContentType := "multipart/form-data; boundary=" ++ m1.bodyWriter.boundary,
    closeBuffer := "\r\n--".data ++ m1.bodyWriter.boundary.data ++ "--\r\n".data }

/-- Boundary (streamer.go): the writer's boundary token. -/
def MultipartStreamer.Boundary (m : MultipartStreamer) : String :=
  m.bodyWriter.boundary

/-- Len (streamer.go): contentLength + bodyBuffer.Len() + closeBuffer.Len(),
computed without touching the payload source. -/
def MultipartStreamer.Len (m : MultipartStreamer) : Int :=
  m.contentLength + Int.ofNat m.bodyBuffer.length + Int.ofNat m.closeBuffer.length

/-- Which of the three concatenated sources a chunk of output came from. -/
inductive Seg
  | header
  | payload
  | trailer
deriving DecidableEq

/-- One source handed to io.MultiReader: a draining byte source tagged with its
position, or the nil io.Reader found in the reader field when no deferred
payload was ever registered. -/
inductive Src
  | buf (tag : Seg) (data : Bytes)
  | nilReader
deriving DecidableEq

/-- The three sources GetReader concatenates, in order: bodyBuffer, the payload
reader, closeBuffer. -/
def getReaderSrcs (m : MultipartStreamer) : List Src :=
  [Src.buf Seg.header m.bodyBuffer,
   (match m.reader with
    | some d => Src.buf Seg.payload d
    | none => Src.nilReader),
   Src.buf Seg.trailer m.closeBuffer]

/-- The state of the underlying payload file handle, for the resource-release
question. -/
structure FileHandle where
  isOpen : Bool

/-- What GetReader returns: the MultiReader sources plus the effect a Close call
has on the state of the underlying payload file handle. -/
structure ReadCloser where
  srcs : List Src
  close : FileHandle → FileHandle

/-- ioutil.NopCloser: Close returns nil without doing anything. -/
def ioNopCloser (l : List Src) : ReadCloser :=
  { srcs := l, close := fun h => h }

/-- GetReader (streamer.go):
ioutil.NopCloser(io.MultiReader(bodyBuffer, reader, closeBuffer)). -/
def MultipartStreamer.GetReader (m : MultipartStreamer) : ReadCloser :=
  ioNopCloser (getReaderSrcs m)

/-- Result of a single io.MultiReader Read call. -/
inductive ReadResult
  | bytes (tag : Seg) (chunk : Bytes) (rest : List Src)
  | eof
  | panicked
deriving DecidableEq

/-- One Read call of capacity k+1 against an io.MultiReader state: a source that
reports EOF is popped and the loop continues, the first source with data yields
at most k+1 bytes from that source alone, an empty source list reports EOF, and
a Read reaching the nil reader panics. -/
def mrRead (k : Nat) : List Src → ReadResult
  | [] => ReadResult.eof
  | Src.nilReader :: _ => ReadResult.panicked
  | Src.buf _ [] :: rest => mrRead k rest
  | Src.buf t (c :: cs) :: rest =>
      ReadResult.bytes t (c :: cs.take k) (Src.buf t (cs.drop k) :: rest)

/-- The successive chunks a sequence of Read calls of capacity k+1 pulls from a
single byte source. The fuel argument, instantiated with the length of the
list, makes the recursion structural so that the kernel can evaluate it. -/
def chunksF (k : Nat) : Nat → Bytes → List Bytes
  | _, [] => []
  | 0, _ :: _ => []
  | f + 1, c :: cs => (c :: cs.take k) :: chunksF k f (cs.drop k)

/-- The chunks a full drain with Read calls of capacity k+1 pulls from one
source. -/
def chunks (k : Nat) (d : Bytes) : List Bytes :=
  chunksF k d.length d

/-- The chunks of one source, each tagged with the source it came from. -/
def tagChunks (k : Nat) (t : Seg) (d : Bytes) : List (Seg × Bytes) :=
  (chunks k d).map (fun ch => (t, ch))

/-- Fully draining an io.MultiReader state with Read calls of capacity k+1: the
trace of returned chunks, each tagged with its source, or none when the drain
panics on the nil reader. Sources drain strictly in order, so the trace is the
concatenation of each source's tagged chunks; the theorems about mrRead below
establish that this is the iteration of single Read calls. -/
def drainTrace (k : Nat) : List Src → Option (List (Seg × Bytes))
  | [] => some []
  | Src.nilReader :: _ => none
  | Src.buf t d :: rest => (drainTrace k rest).map (fun tr => tagChunks k t d ++ tr)

/-- Concatenation of a list of byte chunks. -/
def catChunks : List Bytes → Bytes
  | [] => []
  | x :: xs => x ++ catChunks xs

/-- All bytes of a drain trace, in order. -/
def traceBytes (tr : List (Seg × Bytes)) : Bytes :=
  catChunks (tr.map Prod.snd)

/-- The bytes a drain trace pulled from one particular source. -/
def segBytes (s : Seg) (tr : List (Seg × Bytes)) : Bytes :=
  catChunks ((tr.filter (fun e => e.1 == s)).map Prod.snd)

/-- The bytes a full drain of GetReader yields, none when it panics. -/
def drainBytes (k : Nat) (m : MultipartStreamer) : Option Bytes :=
  (drainTrace k m.GetReader.srcs).map traceBytes

/-- A successful full drain reads the two bytes.Buffers and the payload reader
in place, consuming them; the second component is the streamer as it stands
afterwards. -/
def drainAndConsume (k : Nat) (m : MultipartStreamer) : Option (Bytes × MultipartStreamer) :=
  (drainBytes k m).map (fun out =>
    (out, { m with bodyBuffer := [], reader := m.reader.map (fun _ => ([] : Bytes)), closeBuffer := [] }))

/-- One build-phase call of the kinds the length claims quantify over. -/
inductive BuildOp
  | wFields (fields : List (String × String))
  | wPart (fieldname : String) (data : Bytes) (headers : List (String × Bytes))

/-- Apply one build-phase call. -/
def applyOp (m : MultipartStreamer) : BuildOp → MultipartStreamer
  | BuildOp.wFields fs => m.writeFields fs
  | BuildOp.wPart name data hdrs => m.writePart name data hdrs

/-- Apply a sequence of build-phase calls in order. -/
def applyOps (m : MultipartStreamer) (ops : List BuildOp) : MultipartStreamer :=
  ops.foldl applyOp m

/-- Modelled from the spec: the per-character escaping the spec prescribes for
name and filename, backslash to double backslash, double quote to
backslash-quote, every other character unchanged. Compared against the
escapeQuotes of the source. -/
def escapeSpec (c : Char) : Bytes :=
  if c = bslash then [bslash, bslash]
  else if c = dquote then [bslash, dquote]
  else [c]

/-- The JSON field value of the concrete scenario of claim C5. -/
def c5json : String := "\x7b\"x\":1\x7d"

/-- The streamer of the concrete scenario of claim C5: boundary X, one field,
then a deferred five-byte payload named file. -/
def c5m : MultipartStreamer :=
  ((new "D" [withBoundary "X"]).writeFields [("parameters", c5json)]).writeReader "file" "file" 5 "hello".data

/-- The drained stream claim C5 expects. -/
def c5claimed : String :=
  "--X\r\nContent-Disposition: form-data; name=\"parameters\"\r\n\r\n\x7b\"x\":1\x7d\r\n--X\r\nContent-Disposition: form-data; name=\"file\"; filename=\"file\"\r\n\r\nhello\r\n--X--\r\n"

/-- The stream the code actually produces in the scenario of claim C5: the file
part carries the Content-Type header CreateFormFile always writes. -/
def c5actual : String :=
  "--X\r\nContent-Disposition: form-data; name=\"parameters\"\r\n\r\n\x7b\"x\":1\x7d\r\n--X\r\nContent-Disposition: form-data; name=\"file\"; filename=\"file\"\r\nContent-Type: application/octet-stream\r\n\r\nhello\r\n--X--\r\n"

/-- A streamer built without any deferred-payload registration, for claim C3. -/
def c3m : MultipartStreamer := (new "b" []).writeFields [("a", "1")]

/-- A streamer with a registered five-byte payload, for claim C6. -/
def c6m : MultipartStreamer := (new "X" [withBoundary "X"]).writeReader "f" "f" 5 "hello".data

/-- Concatenation of chunk lists distributes over append. -/
theorem catChunks_append (a b : List Bytes) : catChunks (a ++ b) = catChunks a ++ catChunks b := by
  induction a with
  | nil => rfl
  | cons x xs ih => simp [catChunks, ih]

/-- The chunk splitter does not depend on the fuel once the fuel covers the
length of the list. -/
theorem chunksF_fuel (k : Nat) : ∀ f g d, d.length ≤ f → d.length ≤ g → chunksF k f d = chunksF k g d := by
  intro f
  induction f with
  | zero =>
    intro g d hf hg
    have hd : d = [] := List.eq_nil_of_length_eq_zero (Nat.le_zero.mp hf)
    subst hd
    cases g <;> rfl
  | succ f ih =>
    intro g d hf hg
    match d, g with
    | [], _ => simp [chunksF]
    | c :: cs, 0 => exact absurd hg (by simp)
    | c :: cs, g + 1 =>
      simp only [chunksF]
      congr 1
      apply ih
      · have := List.length_drop k cs
        simp only [List.length_cons] at hf
        omega
      · have := List.length_drop k cs
        simp only [List.length_cons] at hg
        omega

/-- Unfolding equation of chunks on a nonempty list. -/
theorem chunks_cons (k : Nat) (c : Char) (cs : Bytes) :
    chunks k (c :: cs) = (c :: cs.take k) :: chunks k (cs.drop k) := by
  show chunksF k (c :: cs).length (c :: cs) = _
  simp only [List.length_cons, chunksF]
  congr 1
  apply chunksF_fuel
  · have := List.length_drop k cs
    omega
  · exact Nat.le_refl _

/-- Concatenating the chunks of a source recovers the source. -/
theorem catChunks_chunksF (k : Nat) : ∀ f d, d.length ≤ f → catChunks (chunksF k f d) = d := by
  intro f
  induction f with
  | zero =>
    intro d h
    have hd : d = [] := List.eq_nil_of_length_eq_zero (Nat.le_zero.mp h)
    subst hd; rfl
  | succ f ih =>
    intro d h
    match d with
    | [] => rfl
    | c :: cs =>
      simp only [chunksF, catChunks]
      rw [ih (cs.drop k)]
      · simp [List.take_append_drop]
      · have := List.length_drop k cs
        simp only [List.length_cons] at h
        omega

/-- Concatenating the chunks of a source recovers the source. -/
theorem catChunks_chunks (k : Nat) (d : Bytes) : catChunks (chunks k d) = d :=
  catChunks_chunksF k d.length d (Nat.le_refl _)

/-- Dropping the tags of one source's tagged chunks gives its chunks. -/
theorem map_snd_tagChunks (k : Nat) (t : Seg) (d : Bytes) :
    (tagChunks k t d).map Prod.snd = chunks k d := by
  simp [tagChunks, List.map_map, Function.comp]

/-- All bytes of one source's tagged chunks are the source. -/
theorem traceBytes_tagChunks (k : Nat) (t : Seg) (d : Bytes) :
    traceBytes (tagChunks k t d) = d := by
  simp [traceBytes, map_snd_tagChunks, catChunks_chunks]

/-- All bytes of a trace distribute over append. -/
theorem traceBytes_append (a b : List (Seg × Bytes)) :
    traceBytes (a ++ b) = traceBytes a ++ traceBytes b := by
  simp [traceBytes, List.map_append, catChunks_append]

/-- Bytes of one source in a trace distribute over append. -/
theorem segBytes_append (s : Seg) (a b : List (Seg × Bytes)) :
    segBytes s (a ++ b) = segBytes s a ++ segBytes s b := by
  simp [segBytes, List.filter_append, List.map_append, catChunks_append]

/-- Selecting the tag all entries carry keeps every chunk. -/
theorem segBytes_map_self (t : Seg) (l : List Bytes) :
    segBytes t (l.map (fun ch => (t, ch))) = catChunks l := by
  induction l with
  | nil => rfl
  | cons x xs ih =>
    simp only [List.map_cons, segBytes, List.filter_cons, beq_self_eq_true, if_true, List.map_cons] at *
    simp only [catChunks]
    rw [← ih]

/-- Selecting a tag no entry carries keeps nothing. -/
theorem segBytes_map_ne (s t : Seg) (l : List Bytes) (h : ¬ s = t) :
    segBytes s (l.map (fun ch => (t, ch))) = [] := by
  induction l with
  | nil => rfl
  | cons x xs ih =>
    simp only [List.map_cons, segBytes, List.filter_cons] at *
    have : ((t, x).1 == s) = false := by
      simp only [beq_eq_false_iff_ne, ne_eq]
      intro he
      exact h (by simp [he.symm])
    rw [this]
    simp only [Bool.false_eq_true, if_false]
    exact ih

/-- Fidelity of the drain to single Read calls: when one Read call panics, the
full drain panics. -/
theorem drainTrace_of_mrRead_panicked (k : Nat) : ∀ l : List Src, mrRead k l = ReadResult.panicked → drainTrace k l = none := by
  intro l
  induction l with
  | nil => intro h; exact absurd h (by simp [mrRead])
  | cons s rest ih =>
    intro h
    match s with
    | Src.nilReader => rfl
    | Src.buf t [] =>
      have h2 : mrRead k rest = ReadResult.panicked := h
      simp [drainTrace, tagChunks, chunks, chunksF, ih h2]
    | Src.buf t (c :: cs) => exact absurd h (by simp [mrRead])

/-- Fidelity of the drain to single Read calls: when one Read call reports EOF,
the full drain ends with an empty trace. -/
theorem drainTrace_of_mrRead_eof (k : Nat) : ∀ l : List Src, mrRead k l = ReadResult.eof → drainTrace k l = some [] := by
  intro l
  induction l with
  | nil => intro h; rfl
  | cons s rest ih =>
    intro h
    match s with
    | Src.nilReader => exact absurd h (by simp [mrRead])
    | Src.buf t [] =>
      have h2 : mrRead k rest = ReadResult.eof := h
      simp [drainTrace, tagChunks, chunks, chunksF, ih h2]
    | Src.buf t (c :: cs) => exact absurd h (by simp [mrRead])

/-- Fidelity of the drain to single Read calls: when one Read call returns a
chunk from a source, the full drain is that tagged chunk followed by the drain
of the state the Read call leaves behind. -/
theorem drainTrace_of_mrRead_bytes (k : Nat) :
    ∀ l : List Src, ∀ t ch rest, mrRead k l = ReadResult.bytes t ch rest →
      drainTrace k l = (drainTrace k rest).map (fun tr => (t, ch) :: tr) := by
  intro l
  induction l with
  | nil => intro t ch rest h; exact absurd h (by simp [mrRead])
  | cons s l1 ih =>
    intro t ch rest h
    match s with
    | Src.nilReader => exact absurd h (by simp [mrRead])
    | Src.buf t1 [] =>
      have h2 : mrRead k l1 = ReadResult.bytes t ch rest := h
      have h3 := ih t ch rest h2
      simp [drainTrace, tagChunks, chunks, chunksF, h3]
      cases drainTrace k rest <;> simp
    | Src.buf t1 (c :: cs) =>
      have h2 : ReadResult.bytes t1 (c :: cs.take k) (Src.buf t1 (cs.drop k) :: l1) = ReadResult.bytes t ch rest := h
      cases h2
      simp only [drainTrace, tagChunks, chunks_cons, List.map_cons]
      cases hd : drainTrace k l1 <;> simp [tagChunks]

/-- Draining the three sources GetReader concatenates when a payload reader is
registered: the trace is the header chunks, then the payload chunks, then the
trailer chunks. -/
theorem drainTrace_getReader_some (k : Nat) (m : MultipartStreamer) (pay : Bytes) (h : m.reader = some pay) :
    drainTrace k m.GetReader.srcs =
      some (tagChunks k Seg.header m.bodyBuffer ++
        (tagChunks k Seg.payload pay ++ tagChunks k Seg.trailer m.closeBuffer)) := by
  show drainTrace k (getReaderSrcs m) = _
  simp [getReaderSrcs, h, drainTrace]

/-- Draining GetReader with no registered payload reader panics: the composed
reader reaches the nil io.Reader. -/
theorem drainTrace_getReader_none (k : Nat) (m : MultipartStreamer) (h : m.reader = none) :
    drainTrace k m.GetReader.srcs = none := by
  show drainTrace k (getReaderSrcs m) = _
  simp [getReaderSrcs, h, drainTrace]

/-- The bytes of a successful full drain: header buffer, then payload, then
trailer buffer. -/
theorem drainBytes_some (k : Nat) (m : MultipartStreamer) (pay : Bytes) (h : m.reader = some pay) :
    drainBytes k m = some (m.bodyBuffer ++ pay ++ m.closeBuffer) := by
  simp [drainBytes, drainTrace_getReader_some k m pay h, traceBytes_append, traceBytes_tagChunks,
    List.append_assoc]

/-- A full drain with no registered payload panics. -/
theorem drainBytes_none (k : Nat) (m : MultipartStreamer) (h : m.reader = none) :
    drainBytes k m = none := by
  simp [drainBytes, drainTrace_getReader_none k m h]

/-- WriteField does not touch the payload slot or the declared length. -/
theorem writeField_reader (m : MultipartStreamer) (key value : String) :
    ((m.writeField key value).reader = m.reader) ∧ ((m.writeField key value).contentLength = m.contentLength) :=
  ⟨rfl, rfl⟩

/-- WriteFields does not touch the payload slot or the declared length. -/
theorem writeFields_reader (fields : List (String × String)) :
    ∀ m : MultipartStreamer, ((m.writeFields fields).reader = m.reader) ∧
      ((m.writeFields fields).contentLength = m.contentLength) := by
  induction fields with
  | nil => intro m; exact ⟨rfl, rfl⟩
  | cons kv t ih =>
    intro m
    exact ih (m.writeField kv.1 kv.2)

/-- WritePart does not touch the payload slot or the declared length. -/
theorem writePart_reader (m : MultipartStreamer) (fieldname : String) (data : Bytes) (headers : List (String × Bytes)) :
    ((m.writePart fieldname data headers).reader = m.reader) ∧
      ((m.writePart fieldname data headers).contentLength = m.contentLength) :=
  ⟨rfl, rfl⟩

/-- No build-phase call sequence touches the payload slot or the declared
length. -/
theorem applyOps_reader (ops : List BuildOp) :
    ∀ m : MultipartStreamer, ((applyOps m ops).reader = m.reader) ∧
      ((applyOps m ops).contentLength = m.contentLength) := by
  induction ops with
  | nil => intro m; exact ⟨rfl, rfl⟩
  | cons op t ih =>
    intro m
    have h1 := ih (applyOp m op)
    match op with
    | BuildOp.wFields fs =>
      have h2 := writeFields_reader fs m
      exact ⟨h1.1.trans h2.1, h1.2.trans h2.2⟩
    | BuildOp.wPart name data hdrs =>
      exact ⟨h1.1.trans rfl, h1.2.trans rfl⟩

/-- escapeQuotes is exactly the per-character escaping of the spec. -/
theorem escapeQuotes_eq_spec (s : Bytes) : escapeQuotes s = catChunks (s.map escapeSpec) := by
  induction s with
  | nil => rfl
  | cons c cs ih =>
    have ih2 : replacerRun bslash [bslash, bslash] dquote [bslash, dquote] cs = catChunks (cs.map escapeSpec) := ih
    have hdq : ¬ (dquote = bslash) := by decide
    show replacerRun bslash [bslash, bslash] dquote [bslash, dquote] (c :: cs) = _
    by_cases h1 : c = bslash
    · simp [replacerRun, escapeSpec, h1, catChunks, ih2, hdq]
    · by_cases h2 : c = dquote
      · simp [replacerRun, escapeSpec, h1, h2, catChunks, ih2, hdq]
      · simp [replacerRun, escapeSpec, h1, h2, catChunks, ih2]

/-- Bytes of a trace whose entries all avoid a tag select nothing for it. -/
theorem segBytes_eq_nil (s : Seg) (l : List (Seg × Bytes)) (h : ∀ e ∈ l, ¬ e.1 = s) :
    segBytes s l = [] := by
  induction l with
  | nil => rfl
  | cons x xs ih =>
    have hx : ¬ x.1 = s := h x (by simp)
    have : (x.1 == s) = false := by simp [hx]
    simp only [segBytes, List.filter_cons, this, Bool.false_eq_true, if_false]
    exact ih (fun e he => h e (by simp [he]))

/-- Every entry of a tagged chunk list carries its tag. -/
theorem mem_tagChunks_tag (k : Nat) (t : Seg) (d : Bytes) :
    ∀ e ∈ tagChunks k t d, e.1 = t := by
  intro e he
  simp only [tagChunks, List.mem_map] at he
  obtain ⟨ch, _, he2⟩ := he
  rw [← he2]

/-- A tagged chunk list selected by its own tag gives back the source. -/
theorem segBytes_tagChunks_self (k : Nat) (t : Seg) (d : Bytes) :
    segBytes t (tagChunks k t d) = d := by
  show segBytes t ((chunks k d).map (fun ch => (t, ch))) = d
  rw [segBytes_map_self, catChunks_chunks]

/-- A tagged chunk list selected by a different tag gives nothing. -/
theorem segBytes_tagChunks_ne (k : Nat) (s t : Seg) (d : Bytes) (h : ¬ s = t) :
    segBytes s (tagChunks k t d) = [] := by
  show segBytes s ((chunks k d).map (fun ch => (t, ch))) = []
  exact segBytes_map_ne s t _ h

/-- Claim C1, counterexample to the zero-registration half: with no
deferred-payload registration the reader slot holds the nil io.Reader, a full
drain of GetReader panics, and no drained byte count exists for Len to equal. -/
theorem C1_counterexample :
    ¬ ∃ out : Bytes, drainBytes 0 (new "b" []) = some out ∧ (new "b" []).Len = Int.ofNat out.length := by
  rintro ⟨out, hsome, h2⟩
  have hnone : drainBytes 0 (new "b" []) = none := rfl
  rw [hnone] at hsome
  exact Option.noConfusion hsome

/-- Claim C1 (amended to exactly one deferred-payload registration): after any
sequence of WriteFields and WritePart calls on a freshly constructed streamer,
followed by one WriteReader whose declared size is exactly the number of bytes
its source yields, Len before consumption equals the number of bytes a full
drain of GetReader produces, at every Read chunk capacity. -/
theorem C1_len_eq_drained (d : String) (bnds : List String) (ops : List BuildOp)
    (k : Nat) (key fn : String) (pay : Bytes) :
    ∃ out : Bytes,
      drainBytes k ((applyOps (new d (bnds.map withBoundary)) ops).writeReader key fn (Int.ofNat pay.length) pay) = some out ∧
      ((applyOps (new d (bnds.map withBoundary)) ops).writeReader key fn (Int.ofNat pay.length) pay).Len = Int.ofNat out.length := by
  have hr : ((applyOps (new d (bnds.map withBoundary)) ops).writeReader key fn (Int.ofNat pay.length) pay).reader = some pay := rfl
  refine ⟨_, drainBytes_some k _ pay hr, ?_⟩
  unfold MultipartStreamer.Len
  rw [show ((applyOps (new d (bnds.map withBoundary)) ops).writeReader key fn (Int.ofNat pay.length) pay).contentLength = Int.ofNat pay.length from rfl]
  simp [List.length_append]
  omega

/-- Claim C2: with a registered deferred payload, a full drain of GetReader
succeeds, its bytes are exactly header buffer then payload then trailer buffer,
no chunk is pulled from the payload source before the header buffer has been
fully emitted, and no trailer chunk is emitted before the payload source is
exhausted. -/
theorem C2_ordering (k : Nat) (m : MultipartStreamer) (pay : Bytes) (h : m.reader = some pay) :
    ∃ tr, drainTrace k m.GetReader.srcs = some tr ∧
      traceBytes tr = m.bodyBuffer ++ pay ++ m.closeBuffer ∧
      (∀ pre post, tr = pre ++ post → (∃ e ∈ pre, e.1 = Seg.payload) →
        segBytes Seg.header pre = m.bodyBuffer) ∧
      (∀ pre post, tr = pre ++ post → (∃ e ∈ pre, e.1 = Seg.trailer) →
        segBytes Seg.payload pre = pay) := by
  refine ⟨_, drainTrace_getReader_some k m pay h, ?_, ?_, ?_⟩
  · simp [traceBytes_append, traceBytes_tagChunks]
  · intro pre post heq hex
    obtain ⟨e, he, hep⟩ := hex
    rcases List.append_eq_append_iff.mp heq.symm with ⟨a1, hpre, hq⟩ | ⟨c1, hH, hpost⟩
    · have heH : e ∈ tagChunks k Seg.header m.bodyBuffer := by
        rw [hpre]
        exact List.mem_append_left _ he
      have := mem_tagChunks_tag k Seg.header m.bodyBuffer e heH
      rw [hep] at this
      exact absurd this (by decide)
    · rw [hH, segBytes_append, segBytes_tagChunks_self]
      have hc1 : segBytes Seg.header c1 = [] := by
        apply segBytes_eq_nil
        intro e1 he1
        have : e1 ∈ tagChunks k Seg.payload pay ++ tagChunks k Seg.trailer m.closeBuffer := by
          rw [hpost]
          exact List.mem_append_left _ he1
        rcases List.mem_append.mp this with h1 | h1
        · rw [mem_tagChunks_tag k Seg.payload pay e1 h1]
          decide
        · rw [mem_tagChunks_tag k Seg.trailer m.closeBuffer e1 h1]
          decide
      rw [hc1, List.append_nil]
  · intro pre post heq hex
    obtain ⟨e, he, hep⟩ := hex
    rw [← List.append_assoc] at heq
    rcases List.append_eq_append_iff.mp heq.symm with ⟨a1, hpre, hq⟩ | ⟨c1, hH, hpost⟩
    · have heH : e ∈ tagChunks k Seg.header m.bodyBuffer ++ tagChunks k Seg.payload pay := by
        rw [hpre]
        exact List.mem_append_left _ he
      rcases List.mem_append.mp heH with h1 | h1
      · have := mem_tagChunks_tag k Seg.header m.bodyBuffer e h1
        rw [hep] at this
        exact absurd this (by decide)
      · have := mem_tagChunks_tag k Seg.payload pay e h1
        rw [hep] at this
        exact absurd this (by decide)
    · rw [hH, segBytes_append, segBytes_append,
        segBytes_tagChunks_ne k Seg.payload Seg.header m.bodyBuffer (by decide),
        segBytes_tagChunks_self]
      have hc1 : segBytes Seg.payload c1 = [] := by
        apply segBytes_eq_nil
        intro e1 he1
        have : e1 ∈ tagChunks k Seg.trailer m.closeBuffer := by
          rw [hpost]
          exact List.mem_append_left _ he1
        rw [mem_tagChunks_tag k Seg.trailer m.closeBuffer e1 this]
        decide
      rw [hc1, List.append_nil, List.nil_append]

/-- Claim C2, witness: the drain of a concrete streamer with payload hello,
obtained from the ordering theorem. -/
theorem C2_ordering_witness :
    ∃ tr, drainTrace 0 ((new "X" []).writeReader "f" "f" 5 "hello".data).GetReader.srcs = some tr ∧
      traceBytes tr = ((new "X" []).writeReader "f" "f" 5 "hello".data).bodyBuffer ++ "hello".data ++
        ((new "X" []).writeReader "f" "f" 5 "hello".data).closeBuffer := by
  obtain ⟨tr, h1, h2, h3, h4⟩ := C2_ordering 0 ((new "X" []).writeReader "f" "f" 5 "hello".data) "hello".data rfl
  exact ⟨tr, h1, h2⟩

/-- Claim C3 (code bug): on a streamer with no deferred payload, Len correctly
degenerates to header-buffer length plus trailer-buffer length, but the reader
slot holds the nil io.Reader and a full drain of GetReader panics instead of
yielding the two buffers. -/
theorem C3_no_payload :
    c3m.Len = Int.ofNat (c3m.bodyBuffer.length + c3m.closeBuffer.length) ∧
    c3m.reader = none ∧
    drainBytes 0 c3m = none := by
  exact ⟨by decide, rfl, rfl⟩

/-- Claim C4, counterexample: after registering an open file via WriteFile,
calling Close on the ReadCloser returned by GetReader leaves the underlying
handle open, so it does not release it. -/
theorem C4_counterexample :
    ¬ ((((new "X" []).writeFile "file" "f.txt" "hello".data).GetReader.close { isOpen := true }).isOpen = false) := by
  decide

/-- Claim C4 (amended): the ReadCloser GetReader returns is ioutil.NopCloser,
whose Close is a no-op; it never changes the state of the underlying payload
file handle, which the caller must release itself. -/
theorem C4_close_noop (m : MultipartStreamer) (h : FileHandle) :
    m.GetReader.close h = h := rfl

set_option maxRecDepth 40000 in
/-- Claim C5, counterexample: in the concrete scenario the drained stream is not
the byte string the claim expects, because WriteReader frames the file part
through CreateFormFile, which also emits a Content-Type header line, and Len
accordingly differs from the claimed length. -/
theorem C5_counterexample :
    ¬ (drainBytes 0 c5m = some c5claimed.data ∧ c5m.Len = Int.ofNat c5claimed.length) := by
  decide

set_option maxRecDepth 40000 in
/-- Claim C5 (amended): the drained stream of the concrete scenario carries the
additional line Content-Type: application/octet-stream in the file part, and
Len equals the byte length of that actual string. -/
theorem C5_scenario :
    drainBytes 0 c5m = some c5actual.data ∧ c5m.Len = Int.ofNat c5actual.length := by
  exact ⟨by decide, by decide⟩

/-- Claim C6, counterexample: draining the composed stream consumes the
underlying buffers in place, so Len evaluated after a full drain returns only
the declared payload length, no longer the end-of-build value. -/
theorem C6_counterexample :
    (drainAndConsume 0 c6m).map (fun p => p.2.Len) = some 5 ∧ ¬ (c6m.Len = 5) := by
  exact ⟨by decide, by decide⟩

/-- Claim C6 (amended): before any consumption Len returns the end-of-build
value, header length plus declared payload length plus trailer length, and when
the declared length matches what the source yields this equals the byte count a
full drain emits; the drain however consumes the buffers in place, after which
Len returns only the declared payload length. -/
theorem C6_len_invariant (k : Nat) (m : MultipartStreamer) (pay : Bytes)
    (h1 : m.reader = some pay) (h2 : m.contentLength = Int.ofNat pay.length) :
    m.Len = Int.ofNat (m.bodyBuffer.length + pay.length + m.closeBuffer.length) ∧
    ∃ out st, drainAndConsume k m = some (out, st) ∧
      Int.ofNat out.length = m.Len ∧ st.Len = m.contentLength := by
  have hlen : m.Len = Int.ofNat (m.bodyBuffer.length + pay.length + m.closeBuffer.length) := by
    unfold MultipartStreamer.Len
    rw [h2]
    simp only [Int.ofNat_eq_coe]
    push_cast
    ring
  refine ⟨hlen, m.bodyBuffer ++ pay ++ m.closeBuffer,
    { m with bodyBuffer := [], reader := m.reader.map (fun _ => ([] : Bytes)), closeBuffer := [] },
    ?_, ?_, ?_⟩
  · simp [drainAndConsume, drainBytes_some k m pay h1]
  · rw [hlen]
    simp only [List.length_append]
  · unfold MultipartStreamer.Len
    simp

/-- Claim C6, witness: the amended invariant at a concrete streamer with a
five-byte payload. -/
theorem C6_len_invariant_witness :
    c6m.Len = Int.ofNat (c6m.bodyBuffer.length + "hello".data.length + c6m.closeBuffer.length) ∧
    ∃ out st, drainAndConsume 0 c6m = some (out, st) ∧
      Int.ofNat out.length = c6m.Len ∧ st.Len = c6m.contentLength :=
  C6_len_invariant 0 c6m "hello".data rfl (by decide)

/-- Claim C7: a second WriteReader overwrites the payload slot: the streamer
keeps only the second source and the second declared length, the payload chunks
of the drained stream are exactly the second source's bytes, and Len is computed
from the second declared length. -/
theorem C7_last_write_wins (m : MultipartStreamer) (k1 f1 : String) (s1 : Int) (r1 : Bytes)
    (k2 f2 : String) (s2 : Int) (r2 : Bytes) (k : Nat) :
    ((m.writeReader k1 f1 s1 r1).writeReader k2 f2 s2 r2).reader = some r2 ∧
    ((m.writeReader k1 f1 s1 r1).writeReader k2 f2 s2 r2).contentLength = s2 ∧
    (∃ tr, drainTrace k ((m.writeReader k1 f1 s1 r1).writeReader k2 f2 s2 r2).GetReader.srcs = some tr ∧
      segBytes Seg.payload tr = r2) ∧
    ((m.writeReader k1 f1 s1 r1).writeReader k2 f2 s2 r2).Len =
      s2 + Int.ofNat ((m.writeReader k1 f1 s1 r1).writeReader k2 f2 s2 r2).bodyBuffer.length +
      Int.ofNat ((m.writeReader k1 f1 s1 r1).writeReader k2 f2 s2 r2).closeBuffer.length := by
  refine ⟨rfl, rfl, ⟨_, drainTrace_getReader_some k _ r2 rfl, ?_⟩, rfl⟩
  rw [segBytes_append, segBytes_append,
    segBytes_tagChunks_ne k Seg.payload Seg.header _ (by decide),
    segBytes_tagChunks_self,
    segBytes_tagChunks_ne k Seg.payload Seg.trailer _ (by decide)]
  simp

/-- Claim C8: escapeQuotes rewrites every backslash to a double backslash and
every double quote to backslash-quote, leaves every other character unchanged,
and the Content-Disposition values WritePart and WriteReaderWithHeaders write
quote the name and the filename exactly through this escaping. -/
theorem C8_escaping (s : Bytes) (key fn : String) :
    escapeQuotes s = catChunks (s.map escapeSpec) ∧
    escapeSpec bslash = [bslash, bslash] ∧
    escapeSpec dquote = [bslash, dquote] ∧
    (∀ c : Char, c = bslash ∨ c = dquote ∨ escapeSpec c = [c]) ∧
    formDataName key.data = "form-data; name=".data ++ dquote :: (catChunks (key.data.map escapeSpec) ++ [dquote]) ∧
    formDataNameFile key.data fn.data =
      formDataName key.data ++ "; filename=".data ++ dquote :: (catChunks (fn.data.map escapeSpec) ++ [dquote]) := by
  refine ⟨escapeQuotes_eq_spec s, by decide, by decide, ?_, ?_, ?_⟩
  · intro c
    by_cases h1 : c = bslash
    · exact Or.inl h1
    · by_cases h2 : c = dquote
      · exact Or.inr (Or.inl h2)
      · exact Or.inr (Or.inr (by simp [escapeSpec, h1, h2]))
  · unfold formDataName
    rw [escapeQuotes_eq_spec]
  · unfold formDataNameFile
    rw [escapeQuotes_eq_spec]

/-- Claim C9: WriteReaderWithHeaders completes exactly when the headers map
binds Content-Length to a value of dynamic type int64, which becomes the
declared length; for every other map the type assertion panics after the reader
was stored but before anything was written, leaving the body buffer unchanged. -/
theorem C9_content_length_assertion (m : MultipartStreamer) (key fn : String) (r : Bytes)
    (hs : List (String × GoVal)) :
    (match mapIndex hs "Content-Length" with
     | some (GoVal.vInt64 i) =>
       ∃ m2, m.writeReaderWithHeaders key fn r hs = Except.ok m2 ∧
         m2.contentLength = i ∧ m2.reader = some r
     | _ =>
       ∃ m1, m.writeReaderWithHeaders key fn r hs = Except.error m1 ∧
         m1.bodyBuffer = m.bodyBuffer ∧ m1.reader = some r) := by
  unfold MultipartStreamer.writeReaderWithHeaders
  cases hidx : mapIndex hs "Content-Length" with
  | none => exact ⟨_, rfl, rfl, rfl⟩
  | some v =>
    cases v with
    | vInt64 i => exact ⟨_, rfl, rfl, rfl⟩
    | vInt i => exact ⟨_, rfl, rfl, rfl⟩
    | vStr s1 => exact ⟨_, rfl, rfl, rfl⟩

/-- Claim C10: New with WithBoundary always yields a streamer; an invalid
boundary is silently ignored, leaving the default token in effect; and
ContentType, the closing-boundary buffer and Boundary all use the one token in
effect. -/
theorem C10_boundary_coherence (d b : String) :
    ((new d [withBoundary b]).Boundary = if validBoundary b then b else d) ∧
    (new d [withBoundary b]).ContentType = "multipart/form-data; boundary=" ++ (new d [withBoundary b]).Boundary ∧
    (new d [withBoundary b]).closeBuffer =
      "\r\n--".data ++ (new d [withBoundary b]).Boundary.data ++ "--\r\n".data := by
  refine ⟨?_, rfl, rfl⟩
  by_cases h : validBoundary b
  · simp [new, withBoundary, Multipart.Writer.setBoundary, MultipartStreamer.Boundary, h]
  · simp [new, withBoundary, Multipart.Writer.setBoundary, MultipartStreamer.Boundary, h]
